import Mathlib

/-!
Verification of the claude-code-runner adapter
(`components/runners/claude-code-runner/adapter.py` and `auth.py`).

The development shallowly embeds the run-to-event-stream pipeline:
the AG-UI protocol events produced by `ClaudeCodeAdapter.process_run`,
the message-to-event translation loop of `_run_claude_agent_sdk`,
user-message extraction, turn-count tracking, the connect/continuation
fallback, and the `sanitize_user_context` helper.
-/

namespace Runner

/-! ## Protocol events (`ag_ui.core` event constructors used by the adapter) -/

/-- Payload of a `RawEvent` as constructed in `adapter.py`. -/
inductive RawPayload where
  | messageMetadata (messageId : String) (hidden : Bool)
  | systemLog (message : String)
  | systemLogDebug (message : String)
  | thinkingBlock (thinking : String) (signature : String)
  deriving DecidableEq, Repr

/-- AG-UI protocol events emitted by the adapter.  `thread_id`/`run_id` are
constant within a run and therefore omitted. -/
inductive Event where
  | runStarted
  | runFinished
  | runError (message : String)
  | textMessageStart (messageId : String) (role : String)
  | textMessageContent (messageId : Option String) (delta : String)
  | textMessageEnd (messageId : String)
  | toolCallStart (toolCallId : String) (toolCallName : String)
      (parentToolCallId : Option String)
  | toolCallArgs (toolCallId : String) (delta : String)
  | toolCallEnd (toolCallId : String) (result : Option String) (error : Option String)
  | stepStarted (stepName : String)
  | stepFinished (stepName : String)
  | stateDelta
  | raw (payload : RawPayload)
  deriving DecidableEq, Repr

/-- `RunFinished`/`RunError` are the terminal events of a run. -/
def Event.isTerminal : Event → Bool
  | .runFinished => true
  | .runError _ => true
  | _ => false

/-! ## Python string helpers used by `auth.py` / `adapter.py` -/

/-- Characters for which Python's `str.isspace()` returns true
(the set stripped by `str.strip()`). -/
def pySpaceChars : List Char :=
  ['\t', '\n', '\x0b', '\x0c', '\r', '\x1c', '\x1d', '\x1e', '\x1f', ' ',
   '\x85', '\xa0', ' ', ' ', ' ', ' ', ' ', ' ',
   ' ', ' ', ' ', ' ', ' ', ' ', ' ',
   ' ', ' ', ' ', '　']

/-- Python `c.isspace()`. -/
def pyIsSpace (c : Char) : Bool :=
  decide (c ∈ pySpaceChars)

/-- Python `str.strip()` on a character list: drop whitespace at both ends. -/
def pyStripList (l : List Char) : List Char :=
  ((l.dropWhile pyIsSpace).reverse.dropWhile pyIsSpace).reverse

/-- Python `str.strip()`. -/
def pyStrip (s : String) : String :=
  String.mk (pyStripList s.toList)

/-- Membership of the regex class `[a-zA-Z0-9@._-]` from
`sanitize_user_context`. -/
def isAllowedIdChar (c : Char) : Bool :=
  c.isAlpha || c.isDigit || c == '@' || c == '.' || c == '_' || c == '-'

/-- Membership of the regex class `[\x00-\x1f\x7f-\x9f]` (C0/C1 control
characters) from `sanitize_user_context`. -/
def isCtrlChar (c : Char) : Bool :=
  c.toNat ≤ 0x1f || (0x7f ≤ c.toNat && c.toNat ≤ 0x9f)

/-- The `user_id` branch of `sanitize_user_context`: for a nonempty value,
strip, truncate to 255 characters, then drop characters outside
`[a-zA-Z0-9@._-]`. -/
def sanitizeId (user_id : String) : String :=
  if user_id == "" then user_id
  else String.mk (((pyStrip user_id).toList.take 255).filter isAllowedIdChar)

/-- The `user_name` branch of `sanitize_user_context`: for a nonempty
value, strip, truncate to 255 characters, then drop C0/C1 control
characters. -/
def sanitizeName (user_name : String) : String :=
  if user_name == "" then user_name
  else String.mk (((pyStrip user_name).toList.take 255).filter (fun c => !isCtrlChar c))

/-- `auth.py::sanitize_user_context` (identical to the static method
`ClaudeCodeAdapter._sanitize_user_context`). -/
def sanitize_user_context (user_id user_name : String) : String × String :=
  (sanitizeId user_id, sanitizeName user_name)

/-- Python `pat in s` (substring containment) on character lists. -/
def listHasInfix (pat : List Char) : List Char → Bool
  | [] => pat.isEmpty
  | c :: t => pat.isPrefixOf (c :: t) || listHasInfix pat t

/-- Python `pat in s` on strings. -/
def strContains (s pat : String) : Bool :=
  listHasInfix pat.toList s.toList

/-- Python `str.lower()` (character-wise case folding). -/
def pyLower (s : String) : String :=
  String.mk (s.toList.map Char.toLower)

/-- `pat in str(e).lower()` as used for the continuation-fallback check. -/
def containsLower (s pat : String) : Bool :=
  strContains (pyLower s) pat

/-! ## Agent SDK messages (`claude_agent_sdk` message shapes consumed by the
translator loop of `_run_claude_agent_sdk`) -/

/-- Content blocks of a structured assistant/user message.  A tool-use
block's `input` dict is modelled as an association list. -/
inductive Block where
  | textBlock (text : Option String)
  | toolUseBlock (id : Option String) (name : Option String)
      (input : List (String × String))
  | toolResultBlock (toolUseId : Option String) (content : Option String)
      (text : Option String) (isError : Option Bool)
  | thinkingBlock (thinking : String) (signature : String)
  deriving DecidableEq, Repr

/-- The sub-event carried by a `StreamEvent` (`message.event` dict). -/
inductive StreamEventData where
  | messageStart
  | contentBlockDelta (deltaType : String) (text : String)
  | otherEvent (tag : String)
  deriving DecidableEq, Repr

/-- Messages yielded by `client.receive_response()`. -/
inductive SDKMessage where
  | streamEvent (data : StreamEventData)
  | systemMessage (subtype : String) (sessionId : Option String) (text : Option String)
  | assistantMessage (content : List Block) (parentToolUseId : Option String)
  | userMessage (content : List Block) (parentToolUseId : Option String)
  | resultMessage (numTurns : Option Int) (subtype : Option String)
      (isError : Option Bool) (result : Option String)
  deriving DecidableEq, Repr

/-! ## Adapter state -/

/-- Mutable `ClaudeCodeAdapter` fields relevant to the modelled runs, plus a
deterministic supply for `uuid.uuid4()` (`nextId`).  `pendingAssistant`
models the per-run local `current_message` (only gates the
`obs.end_turn` call). -/
structure AdapterState where
  firstRun : Bool
  turnCount : Int
  currentMessageId : Option String
  nextId : Nat
  pendingAssistant : Bool
  deriving DecidableEq, Repr

/-- Adapter state as set up by `ClaudeCodeAdapter.__init__`. -/
def initialState : AdapterState :=
  { firstRun := true, turnCount := 0, currentMessageId := none,
    nextId := 0, pendingAssistant := false }

/-- Deterministic stand-in for `str(uuid.uuid4())`. -/
def freshId (n : Nat) : String := "uuid-" ++ toString n

/-- `json.dumps` on a tool-input association list (modelled without
escaping; only injectivity-free shape matters for the claims). -/
def jsonDumps (input : List (String × String)) : String :=
  "\x7b" ++ String.intercalate ", "
      (input.map fun p => "\"" ++ p.1 ++ "\": \"" ++ p.2 ++ "\"") ++ "\x7d"

/-- `json.dumps` of a string result payload. -/
def jsonDumpsStr (c : String) : String := "\"" ++ c ++ "\""

/-- `self._turn_count` update on a `ResultMessage`
(`if sdk_num_turns is not None and sdk_num_turns > self._turn_count`). -/
def updateTurn (t : Int) : Option Int → Int
  | some n => if t < n then n else t
  | none => t

/-! ## Observability sink.

Modelled from the spec: `observability.py` (`ObservabilityManager`) is part
of this repository but is not under `src/`; per the spec its operations
(`initialize`, `start_turn`, `track_tool_use`, `track_tool_result`,
`end_turn`, `finalize`, `cleanup_on_error`) are "all fire-and-forget from
the core's perspective; failures in this collaborator must not abort the
run", so each call returns normally and an internal failure is only
recorded. -/

/-- Which observability operations fail internally during a run. -/
structure ObsFlags where
  initFail : Bool
  startTurnFail : Bool
  trackUseFail : Bool
  trackResultFail : Bool
  endTurnFail : Bool
  finalizeFail : Bool
  cleanupFail : Bool
  deriving DecidableEq, Repr

/-- Flags with no observability failure. -/
def ObsFlags.none : ObsFlags :=
  ⟨false, false, false, false, false, false, false⟩

/-- One observability call: never raises, only logs. -/
def obsCall (fails : Bool) (name : String) : List String :=
  if fails then [name ++ ": internal failure suppressed"] else [name ++ ": ok"]

/-! ## Message-to-event translator (`_run_claude_agent_sdk` receive loop) -/

/-- Result of translating one message / one block. -/
structure StepOut where
  state : AdapterState
  events : List Event
  obsLog : List String
  deriving Repr

/-- `getattr(block, 'name', '') or 'unknown'` for a tool-use block. -/
def toolCallNameOf (name? : Option String) : String :=
  match name? with
  | some n => if n == "" then "unknown" else n
  | none => "unknown"

/-- `getattr(block, 'id', None) or str(uuid.uuid4())` for a tool-use block:
the id used, and whether a fresh uuid was drawn. -/
def toolCallIdOf (st : AdapterState) (id? : Option String) : String × Bool :=
  match id? with
  | some i => if i == "" then (freshId st.nextId, true) else (i, false)
  | none => (freshId st.nextId, true)

/-- Translation of one content block of a structured assistant/user message
(the `for block in getattr(message, 'content', [])` body). -/
def processBlock (fl : ObsFlags) (st : AdapterState) (parent : Option String) :
    Block → StepOut
  | .textBlock _ => { state := st, events := [], obsLog := [] }
  | .toolUseBlock id? name? input =>
      let idf := toolCallIdOf st id?
      { state := if idf.2 then { st with nextId := st.nextId + 1 } else st,
        events := [Event.toolCallStart idf.1 (toolCallNameOf name?) parent] ++
          (if input.isEmpty then [] else [Event.toolCallArgs idf.1 (jsonDumps input)]),
        obsLog := obsCall fl.trackUseFail "track_tool_use" }
  | .toolResultBlock tuid? content? text? isErr? =>
      let rc : Option String := match content? with
        | some c => some c
        | none => text?
      let rstr := match rc with
        | some c => jsonDumpsStr c
        | none => ""
      let isErr := isErr?.getD false
      { state := st,
        events := match tuid? with
          | some tuid =>
              if tuid == "" then []
              else [Event.toolCallEnd tuid (if isErr then none else some rstr)
                      (if isErr then some rstr else none)]
          | none => [],
        obsLog := obsCall fl.trackResultFail "track_tool_result" }
  | .thinkingBlock th sig =>
      { state := st, events := [Event.raw (.thinkingBlock th sig)], obsLog := [] }

/-- Translate all blocks of a structured message, in order. -/
def processBlocks (fl : ObsFlags) (st : AdapterState) (parent : Option String) :
    List Block → StepOut
  | [] => { state := st, events := [], obsLog := [] }
  | b :: rest =>
      let o1 := processBlock fl st parent b
      let o2 := processBlocks fl o1.state parent rest
      { state := o2.state, events := o1.events ++ o2.events,
        obsLog := o1.obsLog ++ o2.obsLog }

/-- After processing all blocks: `if getattr(message, 'content', []) and
self._current_message_id:` emit `TextMessageEnd` and clear the open id. -/
def closeText (st : AdapterState) (blocks : List Block) :
    AdapterState × List Event :=
  match st.currentMessageId with
  | some mid =>
      if blocks.isEmpty then (st, [])
      else ({ st with currentMessageId := none }, [Event.textMessageEnd mid])
  | none => (st, [])

/-- Translation of one message from `client.receive_response()`
(the body of the `async for message in client.receive_response()` loop). -/
def processMessage (fl : ObsFlags) (st : AdapterState) : SDKMessage → StepOut
  | .streamEvent d =>
      match d with
      | .messageStart =>
          let mid := freshId st.nextId
          { state := { st with currentMessageId := some mid, nextId := st.nextId + 1 },
            events := [Event.textMessageStart mid "assistant"], obsLog := [] }
      | .contentBlockDelta dt text =>
          if dt == "text_delta" && text != "" then
            { state := st, events := [Event.textMessageContent st.currentMessageId text],
              obsLog := [] }
          else { state := st, events := [], obsLog := [] }
      | .otherEvent _ => { state := st, events := [], obsLog := [] }
  | .systemMessage _ _ text? =>
      match text? with
      | some t => { state := st, events := [Event.raw (.systemLogDebug t)], obsLog := [] }
      | none => { state := st, events := [], obsLog := [] }
  | .assistantMessage blocks parent =>
      let st0 := { st with pendingAssistant := true }
      let bo := processBlocks fl st0 parent blocks
      let ce := closeText bo.state blocks
      { state := ce.1, events := bo.events ++ ce.2,
        obsLog := obsCall fl.startTurnFail "start_turn" ++ bo.obsLog }
  | .userMessage blocks parent =>
      let bo := processBlocks fl st parent blocks
      let ce := closeText bo.state blocks
      { state := ce.1, events := bo.events ++ ce.2, obsLog := bo.obsLog }
  | .resultMessage numTurns _ _ _ =>
      let st1 := { st with turnCount := updateTurn st.turnCount numTurns }
      if st1.pendingAssistant then
        { state := { st1 with pendingAssistant := false },
          events := [Event.stateDelta],
          obsLog := obsCall fl.endTurnFail "end_turn" }
      else
        { state := st1, events := [Event.stateDelta], obsLog := [] }

/-- Translate a whole message sequence. -/
def processMessages (fl : ObsFlags) (st : AdapterState) :
    List SDKMessage → StepOut
  | [] => { state := st, events := [], obsLog := [] }
  | m :: rest =>
      let o1 := processMessage fl st m
      let o2 := processMessages fl o1.state rest
      { state := o2.state, events := o1.events ++ o2.events,
        obsLog := o1.obsLog ++ o2.obsLog }

/-! ## Inbound run-request messages (`input_data.messages`) -/

/-- The `content` field of an inbound message: a plain string, a list of
content blocks (each optionally exposing text via a `text` attribute or a
`'text'` dict key), or a non-string/non-list value such as `None`. -/
inductive MsgContent where
  | text (s : String)
  | blocks (bs : List (Option String))
  | nullv
  deriving DecidableEq, Repr

/-- An inbound message: either an object exposing `role`/`content`
attributes (with or without a `model_dump` method, which the echo loop
relies on), or a plain dict. -/
inductive Msg where
  | obj (role : String) (content : MsgContent) (id : Option String)
      (hidden : Bool) (hasModelDump : Bool)
  | dict (role : Option String) (content : MsgContent) (id : Option String)
      (hidden : Bool)
  deriving DecidableEq, Repr

/-- First content block exposing text
(`for block in content: if hasattr(block, 'text') ...`). -/
def firstBlockText : List (Option String) → Option String
  | [] => none
  | some t :: _ => some t
  | none :: rest => firstBlockText rest

/-- One reverse-scan step of `_extract_user_message`: the value this
message yields, or `none` to continue scanning earlier messages. -/
def extractFromMsg : Msg → Option String
  | .obj role content _ _ _ =>
      if role == "user" then
        match content with
        | .text s => some s
        | .blocks bs => firstBlockText bs
        | .nullv => none
      else none
  | .dict role? content _ _ =>
      if role?.getD "" == "user" then
        match content with
        | .text s => some s
        | _ => none
      else none

/-- `ClaudeCodeAdapter._extract_user_message`: scan messages in reverse,
return the first extractable value, else `""`. -/
def extractUserMessage (msgs : List Msg) : String :=
  (msgs.reverse.findSome? extractFromMsg).getD ""

/-- Role as seen by BOTH the echo loop and the extractor when it equals
`"user"` (objects without `model_dump` echo a role of `""` but still
extract by attribute; this predicate is used only for the
no-user-message hypothesis, where the distinction vanishes). -/
def isUserRole : Msg → Bool
  | .obj role _ _ _ _ => role == "user"
  | .dict role? _ _ _ => role?.getD "" == "user"

/-- Truthiness of a message's `content` in the echo loop (`if content:`). -/
def contentTruthy : MsgContent → Bool
  | .text s => s != ""
  | .blocks bs => !bs.isEmpty
  | .nullv => false

/-- Rendering of a message's `content` as the echoed delta. -/
def contentDelta : MsgContent → String
  | .text s => s
  | .blocks bs => String.intercalate "," (bs.map (·.getD ""))
  | .nullv => ""

/-- The `(id, content, hidden-metadata)` view the echo loop obtains via
`msg if isinstance(msg, dict) else msg.model_dump() ...`, or `none` when
the message's echoed role is not `"user"`. -/
def echoFields : Msg → Option (Option String × MsgContent × Bool)
  | .obj role content id hidden hasMD =>
      if hasMD && role == "user" then some (id, content, hidden) else none
  | .dict role? content id hidden =>
      if role?.getD "" == "user" then some (id, content, hidden) else none

/-- Echo one inbound message (the `for msg in input_data.messages` body of
`process_run`); the uuid default for `msg_dict.get('id', str(uuid.uuid4()))`
is always drawn. -/
def echoMsg (nid : Nat) (m : Msg) : List Event × Nat :=
  match echoFields m with
  | none => ([], nid)
  | some (id?, content, hidden) =>
      let mid := id?.getD (freshId nid)
      ((if hidden then [Event.raw (.messageMetadata mid true)] else []) ++
       [Event.textMessageStart mid "user"] ++
       (if contentTruthy content then [Event.textMessageContent (some mid) (contentDelta content)] else []) ++
       [Event.textMessageEnd mid],
       nid + 1)

/-- Echo all inbound user messages. -/
def echoMessages (nid : Nat) : List Msg → List Event × Nat
  | [] => ([], nid)
  | m :: rest =>
      let o1 := echoMsg nid m
      let o2 := echoMessages o1.2 rest
      (o1.1 ++ o2.1, o2.2)

/-! ## The agent run (`_run_claude_agent_sdk`) -/

/-- External behaviour of one invocation of `_run_claude_agent_sdk`:
whether authentication is configured, whether the run resumes
(`IS_RESUME`), the error raised by the first `client.connect()` (if any),
the error raised by the retry `connect()` (if any, reachable only on
fallback), the message stream, an error raised by the receive loop after
the whole stream was processed (if any), and the observability failure
flags. -/
structure Scenario where
  authOk : Bool
  isResume : Bool
  connectErr : Option String
  retryConnectErr : Option String
  stream : List SDKMessage
  streamErr : Option String
  obs : ObsFlags
  deriving Repr

/-- Outcome of `_run_claude_agent_sdk`: final adapter state, events
yielded, the exception propagated to `process_run` (if any), the
continuation flag of each `ClaudeSDKClient` connect attempt, and whether
`client.query(prompt)` was reached. -/
structure SdkResult where
  state : AdapterState
  events : List Event
  err : Option String
  connectAttempts : List Bool
  queried : Bool
  obsLog : List String
  deriving Repr

/-- Shared tail of `_run_claude_agent_sdk` once a client is connected:
the optional "✅ Continuing conversation" raw event, `StepStarted`, the
receive loop, then either the propagated loop error or `StepFinished`,
`self._first_run = False` and `obs.finalize()`. -/
def afterConnect (st : AdapterState) (sc : Scenario) (pre : List Event)
    (attempts : List Bool) (log0 : List String) : SdkResult :=
  let pre2 := pre ++
    (if !st.firstRun then [Event.raw (.systemLog "✅ Continuing conversation")] else []) ++
    [Event.stepStarted "processing_prompt"]
  let po := processMessages sc.obs st sc.stream
  match sc.streamErr with
  | some e =>
      { state := po.state, events := pre2 ++ po.events, err := some e,
        connectAttempts := attempts, queried := true,
        obsLog := log0 ++ po.obsLog ++ obsCall sc.obs.cleanupFail "cleanup_on_error" }
  | none =>
      { state := { po.state with firstRun := false },
        events := pre2 ++ po.events ++ [Event.stepFinished "processing_prompt"],
        err := none, connectAttempts := attempts, queried := true,
        obsLog := log0 ++ po.obsLog ++ obsCall sc.obs.finalizeFail "finalize" }

/-- `ClaudeCodeAdapter._run_claude_agent_sdk`: auth check,
`obs.initialize`, the continuation raw event, connect with the
"no conversation found"/"session" fallback retry, then `afterConnect`.
`current_message` (`pendingAssistant`) is a per-run local, reset here. -/
def runSdk (st0 : AdapterState) (sc : Scenario) : SdkResult :=
  let st := { st0 with pendingAssistant := false }
  if !sc.authOk then
    { state := st, events := [],
      err := some "Either ANTHROPIC_API_KEY or CLAUDE_CODE_USE_VERTEX=1 must be set",
      connectAttempts := [], queried := false, obsLog := [] }
  else
    let initLog := obsCall sc.obs.initFail "initialize"
    let contFlag := !st.firstRun || sc.isResume
    let contEvs :=
      if contFlag then [Event.raw (.systemLog "🔄 Continuing conversation from previous state")]
      else []
    match sc.connectErr with
    | some e =>
        if containsLower e "no conversation found" || containsLower e "session" then
          let fbEvs := contEvs ++
            [Event.raw (.systemLog "⚠️ Could not continue conversation, starting fresh...")]
          match sc.retryConnectErr with
          | some e2 =>
              { state := st, events := fbEvs, err := some e2,
                connectAttempts := [contFlag, false], queried := false,
                obsLog := initLog ++ obsCall sc.obs.cleanupFail "cleanup_on_error" }
          | none => afterConnect st sc fbEvs [contFlag, false] initLog
        else
          { state := st, events := contEvs, err := some e,
            connectAttempts := [contFlag], queried := false,
            obsLog := initLog ++ obsCall sc.obs.cleanupFail "cleanup_on_error" }
    | none => afterConnect st sc contEvs [contFlag] initLog

/-! ## The run controller (`process_run`) -/

/-- Outcome of `process_run`. -/
structure RunResult where
  state : AdapterState
  events : List Event
  connectAttempts : List Bool
  queried : Bool
  obsLog : List String
  deriving Repr

/-- `ClaudeCodeAdapter.process_run`: `RunStarted`, the echo of inbound
user messages, then either the no-user-message epilogue
(`Raw` + `RunFinished`) or the agent run followed by `RunFinished` on
success / `RunError` on a propagated exception. -/
def processRun (st : AdapterState) (sc : Scenario) (msgs : List Msg) : RunResult :=
  let eo := echoMessages st.nextId msgs
  let st1 := { st with nextId := eo.2 }
  if extractUserMessage msgs == "" then
    { state := st1,
      events := [Event.runStarted] ++ eo.1 ++
        [Event.raw (.systemLog "No user message provided"), Event.runFinished],
      connectAttempts := [], queried := false, obsLog := [] }
  else
    let r := runSdk st1 sc
    { state := r.state,
      events := [Event.runStarted] ++ eo.1 ++ r.events ++
        (match r.err with
          | none => [Event.runFinished]
          | some e => [Event.runError e]),
      connectAttempts := r.connectAttempts, queried := r.queried,
      obsLog := r.obsLog }

/-! ## Trace predicates -/

/-- `RunStarted`/`RunFinished`/`RunError` (run-lifecycle events; only
`process_run` itself emits these). -/
def Event.isLifecycle : Event → Bool
  | .runStarted => true
  | .runFinished => true
  | .runError _ => true
  | _ => false

/-- Events that neither open nor close a text-message span. -/
def Event.textNeutral : Event → Bool
  | .textMessageStart _ _ => false
  | .textMessageEnd _ => false
  | _ => true

/-- Scan an event list tracking whether a text-message span is open:
returns `none` as soon as a `TextMessageStart` occurs while a span is
already open, otherwise `some` of the final open-flag. -/
def scanOpen (o : Bool) : List Event → Option Bool
  | [] => some o
  | e :: rest =>
      match e with
      | .textMessageStart _ _ => if o then none else scanOpen true rest
      | .textMessageEnd _ => scanOpen false rest
      | _ => scanOpen o rest

/-- P2: between any two `TextMessageStart` events there is at least one
`TextMessageEnd` (no two text spans simultaneously open). -/
def textExclusive (evs : List Event) : Bool :=
  (scanOpen false evs).isSome

/-- Whether translating one SDK message keeps the text-span scan
violation-free, given open-flag `o`. -/
def stepOk (o : Bool) : SDKMessage → Bool
  | .streamEvent .messageStart => !o
  | _ => true

/-- The open-flag after translating one SDK message. -/
def stepNext (o : Bool) : SDKMessage → Bool
  | .streamEvent .messageStart => true
  | .assistantMessage bs _ => o && bs.isEmpty
  | .userMessage bs _ => o && bs.isEmpty
  | _ => o

/-- Well-formedness of an agent stream with respect to text spans: every
streaming `message_start` arrives while no span is open. -/
def streamOk (o : Bool) : List SDKMessage → Bool
  | [] => true
  | m :: rest => stepOk o m && streamOk (stepNext o m) rest

/-- The advisory raw event emitted before the continuation-fallback
retry. -/
def fallbackRaw : Event :=
  Event.raw (.systemLog "⚠️ Could not continue conversation, starting fresh...")

/-- `RunStarted` recognizer. -/
def Event.isRunStarted : Event → Bool
  | .runStarted => true
  | _ => false

/-- Events that can be produced while translating the content blocks of
one structured message. -/
def blockEvent : Event → Bool
  | .toolCallStart _ _ _ => true
  | .toolCallArgs _ _ => true
  | .toolCallEnd _ _ _ => true
  | .raw (.thinkingBlock _ _) => true
  | _ => false

/-- Events that can be produced by the message-to-event translator. -/
def translatorEvent : Event → Bool
  | .textMessageStart _ _ => true
  | .textMessageContent _ _ => true
  | .textMessageEnd _ => true
  | .toolCallStart _ _ _ => true
  | .toolCallArgs _ _ => true
  | .toolCallEnd _ _ _ => true
  | .stateDelta => true
  | .raw (.systemLogDebug _) => true
  | .raw (.thinkingBlock _ _) => true
  | _ => false

/-- All events of a list satisfy a predicate. -/
def AllEv (p : Event → Bool) (l : List Event) : Prop :=
  ∀ e ∈ l, p e = true

/-! ## Lemmas: `sanitize_user_context` -/

theorem space_not_allowed (c : Char) (h : pyIsSpace c = true) :
    isAllowedIdChar c = false := by
  have hm : c ∈ pySpaceChars := of_decide_eq_true h
  fin_cases hm <;> decide

theorem allowed_not_space (c : Char) (h : isAllowedIdChar c = true) :
    pyIsSpace c = false := by
  cases hp : pyIsSpace c
  · rfl
  · rw [space_not_allowed c hp] at h
    cases h

theorem dropWhile_eq_self_of {p : Char → Bool} {l : List Char}
    (h : ∀ c ∈ l, p c = false) : l.dropWhile p = l := by
  cases l with
  | nil => rfl
  | cons a t => simp [List.dropWhile, h a (by simp)]

theorem pyStripList_eq_self {l : List Char}
    (h : ∀ c ∈ l, pyIsSpace c = false) : pyStripList l = l := by
  unfold pyStripList
  rw [dropWhile_eq_self_of h]
  rw [dropWhile_eq_self_of (by intro c hc; exact h c (List.mem_reverse.mp hc))]
  exact List.reverse_reverse l

theorem toList_mk (l : List Char) : (String.mk l).toList = l := rfl

theorem mk_toList (s : String) : String.mk s.toList = s := rfl

theorem sanitizeId_length (u : String) : (sanitizeId u).toList.length ≤ 255 := by
  unfold sanitizeId
  split
  · next h => rw [eq_of_beq h]; simp
  · exact le_trans (List.length_filter_le _ _) (List.length_take_le _ _)

theorem sanitizeId_mem (u : String) :
    ∀ c ∈ (sanitizeId u).toList, isAllowedIdChar c = true := by
  unfold sanitizeId
  split
  · next h => rw [eq_of_beq h]; simp
  · intro c hc
    rw [toList_mk] at hc
    exact (List.mem_filter.mp hc).2

theorem sanitizeName_length (u : String) : (sanitizeName u).toList.length ≤ 255 := by
  unfold sanitizeName
  split
  · next h => rw [eq_of_beq h]; simp
  · exact le_trans (List.length_filter_le _ _) (List.length_take_le _ _)

theorem sanitizeName_mem (u : String) :
    ∀ c ∈ (sanitizeName u).toList, isCtrlChar c = false := by
  unfold sanitizeName
  split
  · next h => rw [eq_of_beq h]; simp
  · intro c hc
    rw [toList_mk] at hc
    have := (List.mem_filter.mp hc).2
    simpa using this

theorem sanitizeId_fixed (v : String) (hlen : v.toList.length ≤ 255)
    (hmem : ∀ c ∈ v.toList, isAllowedIdChar c = true) : sanitizeId v = v := by
  by_cases h : v = ""
  · rw [h]; rfl
  · unfold sanitizeId
    rw [if_neg (by simpa using h)]
    have hs : pyStrip v = v := by
      unfold pyStrip
      rw [pyStripList_eq_self (fun c hc => allowed_not_space c (hmem c hc))]
      exact mk_toList v
    rw [hs, List.take_of_length_le hlen, List.filter_eq_self.mpr hmem, mk_toList]

theorem sanitizeId_idem (u : String) : sanitizeId (sanitizeId u) = sanitizeId u :=
  sanitizeId_fixed (sanitizeId u) (sanitizeId_length u) (sanitizeId_mem u)

theorem sanitizeName_fixed (v : String) (hlen : v.toList.length ≤ 255)
    (hmem : ∀ c ∈ v.toList, isCtrlChar c = false) (hs : pyStrip v = v) :
    sanitizeName v = v := by
  by_cases h : v = ""
  · rw [h]; rfl
  · unfold sanitizeName
    rw [if_neg (by simpa using h), hs, List.take_of_length_le hlen,
        List.filter_eq_self.mpr (by intro c hc; simp [hmem c hc]), mk_toList]

theorem sanitizeName_idem_of_stripped (u : String)
    (h : pyStrip (sanitizeName u) = sanitizeName u) :
    sanitizeName (sanitizeName u) = sanitizeName u :=
  sanitizeName_fixed (sanitizeName u) (sanitizeName_length u) (sanitizeName_mem u) h

/-- **C10** (amended): for every input pair, `sanitize_user_context`
returns a `user_id` of length at most 255 containing only characters from
`[a-zA-Z0-9@._-]` and a `user_name` of length at most 255 containing no
C0/C1 control characters; an empty `user_id` or `user_name` is returned
unchanged; the `user_id` component is idempotent, and the `user_name`
component is idempotent whenever the first output carries no
leading/trailing Python whitespace. -/
theorem c10_sanitize_user_context (uid uname : String) :
    ((sanitize_user_context uid uname).1.toList.length ≤ 255) ∧
    (∀ c ∈ (sanitize_user_context uid uname).1.toList, isAllowedIdChar c = true) ∧
    ((sanitize_user_context uid uname).2.toList.length ≤ 255) ∧
    (∀ c ∈ (sanitize_user_context uid uname).2.toList, isCtrlChar c = false) ∧
    (uid = "" → (sanitize_user_context uid uname).1 = uid) ∧
    (uname = "" → (sanitize_user_context uid uname).2 = uname) ∧
    ((sanitize_user_context (sanitize_user_context uid uname).1
        (sanitize_user_context uid uname).2).1 = (sanitize_user_context uid uname).1) ∧
    (pyStrip (sanitize_user_context uid uname).2 = (sanitize_user_context uid uname).2 →
      (sanitize_user_context (sanitize_user_context uid uname).1
        (sanitize_user_context uid uname).2).2 = (sanitize_user_context uid uname).2) :=
  ⟨sanitizeId_length uid, sanitizeId_mem uid, sanitizeName_length uname,
   sanitizeName_mem uname,
   fun h => by rw [h]; rfl,
   fun h => by rw [h]; rfl,
   sanitizeId_idem uid,
   fun h => sanitizeName_idem_of_stripped uname h⟩

/-- Witness for **C10**: the amended theorem applied at concrete inputs,
discharging the emptiness and no-surrounding-whitespace hypotheses. -/
theorem c10_sanitize_user_context_witness :
    (sanitize_user_context "" "").1 = "" ∧
    (sanitize_user_context "" "").2 = "" ∧
    (sanitize_user_context (sanitize_user_context "" "Bob ").1
      (sanitize_user_context "" "Bob ").2).2 = (sanitize_user_context "" "Bob ").2 := by
  have h1 := c10_sanitize_user_context "" ""
  have h2 := c10_sanitize_user_context "" "Bob "
  exact ⟨h1.2.2.2.2.1 rfl, h1.2.2.2.2.2.1 rfl,
         h2.2.2.2.2.2.2.2 (by decide)⟩

/-- **C10** counterexample: `sanitize_user_context` is *not* idempotent as
claimed: on `user_name = "abc \x01"` the control character is removed
after stripping, exposing a trailing space, which a second application
strips (`"abc " ≠ "abc"`). -/
theorem c10_counterexample :
    sanitize_user_context (sanitize_user_context "user1" "abc \x01").1
        (sanitize_user_context "user1" "abc \x01").2 ≠
      sanitize_user_context "user1" "abc \x01" := by
  decide

/-! ## Lemmas: turn-count tracking -/

theorem processBlock_turnCount (fl : ObsFlags) (st : AdapterState)
    (p : Option String) (b : Block) :
    (processBlock fl st p b).state.turnCount = st.turnCount := by
  cases b with
  | toolUseBlock id? name? input => simp only [processBlock]; split <;> rfl
  | _ => rfl

theorem processBlocks_turnCount (fl : ObsFlags) (p : Option String)
    (bs : List Block) : ∀ st : AdapterState,
    (processBlocks fl st p bs).state.turnCount = st.turnCount := by
  induction bs with
  | nil => intro st; rfl
  | cons b rest ih =>
      intro st
      simp only [processBlocks]
      rw [ih, processBlock_turnCount]

theorem closeText_turnCount (st : AdapterState) (bs : List Block) :
    (closeText st bs).1.turnCount = st.turnCount := by
  unfold closeText
  split
  · split <;> rfl
  · rfl

theorem processMessage_turnCount_le (fl : ObsFlags) (st : AdapterState)
    (m : SDKMessage) :
    st.turnCount ≤ (processMessage fl st m).state.turnCount := by
  cases m with
  | streamEvent d =>
      cases d with
      | messageStart => exact le_refl _
      | contentBlockDelta dt text => simp only [processMessage]; split <;> exact le_refl _
      | otherEvent t => exact le_refl _
  | systemMessage s sid text? =>
      cases text? <;> exact le_refl _
  | assistantMessage bs p =>
      simp only [processMessage]
      rw [closeText_turnCount, processBlocks_turnCount]
  | userMessage bs p =>
      simp only [processMessage]
      rw [closeText_turnCount, processBlocks_turnCount]
  | resultMessage n s e r =>
      simp only [processMessage]
      split
      · show st.turnCount ≤ updateTurn st.turnCount n
        cases n with
        | none => exact le_refl _
        | some k =>
            simp only [updateTurn]
            split
            · next h => exact le_of_lt h
            · exact le_refl _
      · show st.turnCount ≤ updateTurn st.turnCount n
        cases n with
        | none => exact le_refl _
        | some k =>
            simp only [updateTurn]
            split
            · next h => exact le_of_lt h
            · exact le_refl _

theorem processMessages_turnCount_le (fl : ObsFlags) (msgs : List SDKMessage) :
    ∀ st : AdapterState,
    st.turnCount ≤ (processMessages fl st msgs).state.turnCount := by
  induction msgs with
  | nil => intro st; exact le_refl _
  | cons m rest ih =>
      intro st
      simp only [processMessages]
      exact le_trans (processMessage_turnCount_le fl st m) (ih _)

theorem runSdk_turnCount_le (st : AdapterState) (sc : Scenario) :
    st.turnCount ≤ (runSdk st sc).state.turnCount := by
  unfold runSdk afterConnect
  split
  · exact le_refl _
  · split
    · split
      · split
        · exact le_refl _
        · split
          · exact processMessages_turnCount_le _ _ _
          · exact processMessages_turnCount_le _ _ _
      · exact le_refl _
    · split
      · exact processMessages_turnCount_le _ _ _
      · exact processMessages_turnCount_le _ _ _

theorem processRun_turnCount_le (st : AdapterState) (sc : Scenario)
    (msgs : List Msg) :
    st.turnCount ≤ (processRun st sc msgs).state.turnCount := by
  unfold processRun
  split
  · exact le_refl _
  · exact runSdk_turnCount_le _ _

/-- **C8**: the tracked `turn_count` is monotonically non-decreasing across
any translated message sequence and across whole runs, and a terminal
result message raises it exactly to the maximum of the tracked and
reported counts (i.e. it is raised iff the reported count exceeds the
tracked count, and is left unchanged when the report is absent). -/
theorem c8_turn_count_monotonic :
    (∀ (fl : ObsFlags) (st : AdapterState) (msgs : List SDKMessage),
        st.turnCount ≤ (processMessages fl st msgs).state.turnCount) ∧
    (∀ (st : AdapterState) (sc : Scenario) (msgs : List Msg),
        st.turnCount ≤ (processRun st sc msgs).state.turnCount) ∧
    (∀ t n : Int, updateTurn t (some n) = max t n) ∧
    (∀ t : Int, updateTurn t none = t) := by
  refine ⟨fun fl st msgs => processMessages_turnCount_le fl msgs st,
          fun st sc msgs => processRun_turnCount_le st sc msgs, ?_, fun t => rfl⟩
  intro t n
  simp only [updateTurn]
  split
  · next h => exact (max_eq_right (le_of_lt h)).symm
  · next h => exact (max_eq_left (not_lt.mp h)).symm

/-! ## Lemmas: user-message extraction -/

theorem extract_last (ms : List Msg) (m : Msg) :
    extractUserMessage (ms ++ [m]) =
      match extractFromMsg m with
      | some s => s
      | none => extractUserMessage ms := by
  unfold extractUserMessage
  rw [List.reverse_append]
  simp only [List.reverse_cons, List.reverse_nil, List.nil_append,
    List.singleton_append, List.findSome?_cons]
  cases extractFromMsg m <;> simp

theorem extractFromMsg_none_of_not_user (m : Msg) (h : isUserRole m = false) :
    extractFromMsg m = none := by
  cases m with
  | obj role content id hidden hasMD =>
      simp only [isUserRole] at h
      simp [extractFromMsg, h]
  | dict role? content id hidden =>
      simp only [isUserRole] at h
      simp [extractFromMsg, h]

/-- **C5** (amended): `_extract_user_message` scans the messages in reverse
order; the last object-shaped message with role `"user"` yields its plain
string content, or the first text-exposing block of a block-list content
(continuing the scan to earlier messages when no block exposes text); a
dict-shaped message with role `"user"` yields only plain-string content —
a dict-shaped message whose content is a sequence of blocks is skipped —
and messages without role `"user"` are skipped. -/
theorem c5_extract_user_message (ms : List Msg) :
    (∀ s id hidden hasMD,
        extractUserMessage (ms ++ [Msg.obj "user" (.text s) id hidden hasMD]) = s) ∧
    (∀ s id hidden,
        extractUserMessage (ms ++ [Msg.dict (some "user") (.text s) id hidden]) = s) ∧
    (∀ bs t id hidden hasMD, firstBlockText bs = some t →
        extractUserMessage (ms ++ [Msg.obj "user" (.blocks bs) id hidden hasMD]) = t) ∧
    (∀ bs id hidden,
        extractUserMessage (ms ++ [Msg.dict (some "user") (.blocks bs) id hidden]) =
          extractUserMessage ms) ∧
    (∀ m, isUserRole m = false →
        extractUserMessage (ms ++ [m]) = extractUserMessage ms) := by
  refine ⟨?_, ?_, ?_, ?_, ?_⟩
  · intro s id hidden hasMD
    rw [extract_last]
    simp [extractFromMsg]
  · intro s id hidden
    rw [extract_last]
    simp [extractFromMsg]
  · intro bs t id hidden hasMD h
    rw [extract_last]
    simp [extractFromMsg, h]
  · intro bs id hidden
    rw [extract_last]
    simp [extractFromMsg]
  · intro m h
    rw [extract_last, extractFromMsg_none_of_not_user m h]

/-- Witness for **C5**: the reverse scan skips a later dict-shaped
block-content user message and returns the text-exposing block of the
earlier object-shaped user message. -/
theorem c5_extract_user_message_witness :
    extractUserMessage [Msg.obj "user" (.blocks [none, some "hi"]) none false true,
                        Msg.dict (some "user") (.blocks [some "x"]) none false] = "hi" := by
  have h2 := (c5_extract_user_message
      [Msg.obj "user" (.blocks [none, some "hi"]) none false true]).2.2.2.1
      [some "x"] none false
  have h1 := (c5_extract_user_message []).2.2.1 [none, some "hi"] "hi" none false true
      (by decide)
  exact h2.trans h1

/-- **C5** counterexample: a dict-shaped message whose content is a
sequence of blocks is *not* supported: the block's text `"hi"` is not
returned; the scan skips the message and extraction yields `""`. -/
theorem c5_counterexample :
    extractUserMessage [Msg.dict (some "user") (.blocks [some "hi"]) none false] = "" ∧
    extractUserMessage [Msg.dict (some "user") (.blocks [some "hi"]) none false] ≠ "hi" := by
  decide

/-! ## C7: tool-use block translation -/

/-- **C7** (amended): a tool-use block is translated to a `ToolCallStart`
whose `tool_call_id` is the block's id when that id is present and
nonempty, and a freshly generated id when the id is absent *or empty*;
`tool_call_name` defaults to `"unknown"` when the name is absent; a
`ToolCallArgs` event carrying the JSON-serialized input follows if and
only if the block's structured input is non-empty. -/
theorem c7_tool_use_translation (fl : ObsFlags) (st : AdapterState)
    (parent : Option String) (id? name? : Option String)
    (input : List (String × String)) :
    ((processBlock fl st parent (.toolUseBlock id? name? input)).events =
      Event.toolCallStart (toolCallIdOf st id?).1 (toolCallNameOf name?) parent ::
        (if input.isEmpty then []
         else [Event.toolCallArgs (toolCallIdOf st id?).1 (jsonDumps input)])) ∧
    (∀ i, id? = some i → i ≠ "" → (toolCallIdOf st id?).1 = i) ∧
    (id? = none → (toolCallIdOf st id?).1 = freshId st.nextId) ∧
    (id? = some "" → (toolCallIdOf st id?).1 = freshId st.nextId) ∧
    (name? = none → toolCallNameOf name? = "unknown") := by
  refine ⟨rfl, ?_, ?_, ?_, ?_⟩
  · intro i hi hne
    subst hi
    simp only [toolCallIdOf]
    rw [if_neg (by simpa using hne)]
  · intro h; subst h; rfl
  · intro h; subst h; rfl
  · intro h; subst h; rfl

/-- Witness for **C7**: a tool-use block with a nonempty id, a name and
non-empty input yields `ToolCallStart` with the block's id followed by one
`ToolCallArgs` with the serialized input. -/
theorem c7_tool_use_translation_witness :
    (processBlock ObsFlags.none initialState none
        (.toolUseBlock (some "toolu_1") (some "Bash") [("cmd", "ls")])).events =
      [Event.toolCallStart "toolu_1" "Bash" none,
       Event.toolCallArgs "toolu_1" (jsonDumps [("cmd", "ls")])] ∧
    (toolCallIdOf initialState (some "toolu_1")).1 = "toolu_1" := by
  have h := c7_tool_use_translation ObsFlags.none initialState none
      (some "toolu_1") (some "Bash") [("cmd", "ls")]
  refine ⟨?_, h.2.1 "toolu_1" rfl (by decide)⟩
  rw [h.1, h.2.1 "toolu_1" rfl (by decide)]
  rfl

/-- **C7** counterexample: a tool-use block whose id field holds the empty
string `""` is emitted with a freshly generated id (`"uuid-0"`), not with
the block's id, refuting "the `tool_call_id` is the block's id" for that
input. -/
theorem c7_counterexample :
    (processBlock ObsFlags.none initialState none
        (.toolUseBlock (some "") (some "Bash") [])).events =
      [Event.toolCallStart "uuid-0" "Bash" none] ∧ ("uuid-0" : String) ≠ "" := by
  decide

/-! ## Lemmas: event classes of the translator -/

theorem allEv_iff_all (p : Event → Bool) (l : List Event) :
    AllEv p l ↔ l.all p = true := by
  simp [AllEv, List.all_eq_true]

theorem all_mono {p q : Event → Bool} (h : ∀ e, p e = true → q e = true)
    {l : List Event} (hl : l.all p = true) : l.all q = true := by
  rw [List.all_eq_true] at *
  exact fun e he => h e (hl e he)

theorem processBlock_blockEvent (fl : ObsFlags) (st : AdapterState)
    (p : Option String) (b : Block) :
    ((processBlock fl st p b).events.all blockEvent) = true := by
  cases b with
  | textBlock t => rfl
  | toolUseBlock id? name? input =>
      simp only [processBlock, List.all_append]
      refine Bool.and_eq_true_iff.mpr ⟨rfl, ?_⟩
      split <;> rfl
  | toolResultBlock tuid? c t e =>
      cases tuid? with
      | none => rfl
      | some tuid =>
          simp only [processBlock]
          split <;> rfl
  | thinkingBlock th sig => rfl

theorem processBlocks_blockEvent (fl : ObsFlags) (p : Option String)
    (bs : List Block) : ∀ st : AdapterState,
    ((processBlocks fl st p bs).events.all blockEvent) = true := by
  induction bs with
  | nil => intro st; rfl
  | cons b rest ih =>
      intro st
      simp only [processBlocks, List.all_append]
      exact Bool.and_eq_true_iff.mpr ⟨processBlock_blockEvent fl st p b, ih _⟩

theorem closeText_textEnd (st : AdapterState) (bs : List Block) :
    (closeText st bs).2 = [] ∨
      ∃ mid, (closeText st bs).2 = [Event.textMessageEnd mid] := by
  unfold closeText
  split
  · split
    · exact Or.inl rfl
    · exact Or.inr ⟨_, rfl⟩
  · exact Or.inl rfl

theorem blockEvent_translator (e : Event) (h : blockEvent e = true) :
    translatorEvent e = true := by
  cases e with
  | raw pl => cases pl <;> first | rfl | exact absurd h (by simp [blockEvent])
  | _ => first | rfl | exact absurd h (by simp [blockEvent])

theorem processMessage_translatorEvent (fl : ObsFlags) (st : AdapterState)
    (m : SDKMessage) :
    ((processMessage fl st m).events.all translatorEvent) = true := by
  cases m with
  | streamEvent d =>
      cases d with
      | messageStart => rfl
      | contentBlockDelta dt text =>
          simp only [processMessage]
          split <;> rfl
      | otherEvent t => rfl
  | systemMessage s sid text? => cases text? <;> rfl
  | assistantMessage bs p =>
      simp only [processMessage, List.all_append]
      refine Bool.and_eq_true_iff.mpr
        ⟨all_mono blockEvent_translator (processBlocks_blockEvent fl p bs _), ?_⟩
      rcases closeText_textEnd
          (processBlocks fl { st with pendingAssistant := true } p bs).state bs with
        h | ⟨mid, h⟩ <;> rw [h] <;> rfl
  | userMessage bs p =>
      simp only [processMessage, List.all_append]
      refine Bool.and_eq_true_iff.mpr
        ⟨all_mono blockEvent_translator (processBlocks_blockEvent fl p bs _), ?_⟩
      rcases closeText_textEnd (processBlocks fl st p bs).state bs with
        h | ⟨mid, h⟩ <;> rw [h] <;> rfl
  | resultMessage n s e r =>
      simp only [processMessage]
      split <;> rfl

theorem processMessages_translatorEvent (fl : ObsFlags) (msgs : List SDKMessage) :
    ∀ st : AdapterState,
    ((processMessages fl st msgs).events.all translatorEvent) = true := by
  induction msgs with
  | nil => intro st; rfl
  | cons m rest ih =>
      intro st
      simp only [processMessages, List.all_append]
      exact Bool.and_eq_true_iff.mpr ⟨processMessage_translatorEvent fl st m, ih _⟩

theorem translator_not_lifecycle (e : Event) (h : translatorEvent e = true) :
    (!e.isLifecycle) = true := by
  cases e with
  | raw pl => rfl
  | _ => first | rfl | exact absurd h (by simp [translatorEvent])

theorem allB_append (p : Event → Bool) {a b : List Event}
    (ha : a.all p = true) (hb : b.all p = true) : (a ++ b).all p = true := by
  simp [List.all_append, ha, hb]

theorem allB_ite (p : Event → Bool) (c : Prop) [Decidable c] {a b : List Event}
    (ha : a.all p = true) (hb : b.all p = true) :
    (if c then a else b).all p = true := by
  split <;> assumption

theorem echoMsg_lifecycle (nid : Nat) (m : Msg) :
    ((echoMsg nid m).1.all (fun e => !e.isLifecycle)) = true := by
  unfold echoMsg
  split
  · rfl
  · repeat' first
      | rfl
      | apply allB_append (fun e => !e.isLifecycle)
      | apply allB_ite (fun e => !e.isLifecycle)

theorem echoMessages_lifecycle (msgs : List Msg) : ∀ nid : Nat,
    ((echoMessages nid msgs).1.all (fun e => !e.isLifecycle)) = true := by
  induction msgs with
  | nil => intro nid; rfl
  | cons m rest ih =>
      intro nid
      simp only [echoMessages, List.all_append]
      exact Bool.and_eq_true_iff.mpr ⟨echoMsg_lifecycle nid m, ih _⟩

theorem runSdk_lifecycle (st : AdapterState) (sc : Scenario) :
    ((runSdk st sc).events.all (fun e => !e.isLifecycle)) = true := by
  have htr : ∀ (fl : ObsFlags) (st' : AdapterState),
      ((processMessages fl st' sc.stream).events.all (fun e => !e.isLifecycle)) = true :=
    fun fl st' =>
      all_mono translator_not_lifecycle (processMessages_translatorEvent fl sc.stream st')
  unfold runSdk afterConnect
  repeat' split
  all_goals
    repeat' first
      | exact htr _ _
      | rfl
      | apply allB_append (fun e => !e.isLifecycle)
      | apply allB_ite (fun e => !e.isLifecycle)

/-! ## Lemmas: run event-sequence shape -/

theorem filter_terminal_nil {l : List Event}
    (h : l.all (fun e => !e.isLifecycle) = true) :
    l.filter Event.isTerminal = [] := by
  rw [List.filter_eq_nil_iff]
  intro e he
  have := List.all_eq_true.mp h e he
  cases e <;> simp_all [Event.isTerminal, Event.isLifecycle]

theorem filter_runStarted_nil {l : List Event}
    (h : l.all (fun e => !e.isLifecycle) = true) :
    l.filter Event.isRunStarted = [] := by
  rw [List.filter_eq_nil_iff]
  intro e he
  have := List.all_eq_true.mp h e he
  cases e <;> simp_all [Event.isRunStarted, Event.isLifecycle]

theorem terminal_not_runStarted {t : Event} (ht : t.isTerminal = true) :
    Event.isRunStarted t = false := by
  cases t <;> simp_all [Event.isTerminal, Event.isRunStarted]

theorem runShape (evs mid : List Event) (t : Event)
    (he : evs = Event.runStarted :: (mid ++ [t]))
    (hmid : mid.all (fun e => !e.isLifecycle) = true)
    (ht : t.isTerminal = true) :
    (evs.head? = some Event.runStarted) ∧
    ((evs.filter Event.isTerminal).length = 1) ∧
    (∃ e, evs.getLast? = some e ∧ e.isTerminal = true) ∧
    ((evs.filter Event.isRunStarted).length = 1) := by
  subst he
  refine ⟨rfl, ?_, ?_, ?_⟩
  · rw [List.filter_cons, List.filter_append, filter_terminal_nil hmid]
    simp [List.filter_cons, ht,
      show Event.isTerminal Event.runStarted = false from rfl]
  · refine ⟨t, ?_, ht⟩
    rw [show Event.runStarted :: (mid ++ [t]) = (Event.runStarted :: mid) ++ [t]
          from rfl]
    exact List.getLast?_concat _
  · rw [List.filter_cons, List.filter_append, filter_runStarted_nil hmid]
    simp [List.filter_cons, terminal_not_runStarted ht,
      show Event.isRunStarted Event.runStarted = true from rfl]

/-- **C1**: every run produced by `process_run` yields `RunStarted` as its
first event, yields exactly one of `RunFinished`/`RunError`, and that
terminal event is the last of the sequence.  (The model always yields at
least one event; exceptions escaping `except Exception` — e.g. task
cancellation — are outside the embedding.) -/
theorem processRun_shape (st : AdapterState) (sc : Scenario) (msgs : List Msg) :
    ((processRun st sc msgs).events.head? = some Event.runStarted) ∧
    (((processRun st sc msgs).events.filter Event.isTerminal).length = 1) ∧
    (∃ e, (processRun st sc msgs).events.getLast? = some e ∧
      e.isTerminal = true) ∧
    (((processRun st sc msgs).events.filter Event.isRunStarted).length = 1) := by
  unfold processRun
  split
  · exact runShape _ ((echoMessages st.nextId msgs).1 ++
        [Event.raw (.systemLog "No user message provided")]) Event.runFinished
      (by simp)
      (allB_append _ (echoMessages_lifecycle msgs st.nextId) rfl) rfl
  · cases hre : (runSdk { st with nextId := (echoMessages st.nextId msgs).2 } sc).err with
    | none =>
        refine runShape _ ((echoMessages st.nextId msgs).1 ++
            (runSdk { st with nextId := (echoMessages st.nextId msgs).2 } sc).events)
            Event.runFinished ?_
            (allB_append _ (echoMessages_lifecycle msgs st.nextId)
              (runSdk_lifecycle _ sc)) rfl
        simp [hre]
    | some e =>
        refine runShape _ ((echoMessages st.nextId msgs).1 ++
            (runSdk { st with nextId := (echoMessages st.nextId msgs).2 } sc).events)
            (Event.runError e) ?_
            (allB_append _ (echoMessages_lifecycle msgs st.nextId)
              (runSdk_lifecycle _ sc)) rfl
        simp [hre]

/-- **C1**: every run produced by `process_run` yields `RunStarted` as its
first event, yields exactly one of `RunFinished`/`RunError`, and that
terminal event is the last of the sequence.  (The model always yields at
least one event; exceptions escaping `except Exception` — e.g. task
cancellation — are outside the embedding.) -/
theorem c1_terminal_shape (st : AdapterState) (sc : Scenario) (msgs : List Msg) :
    ((processRun st sc msgs).events.head? = some Event.runStarted) ∧
    (((processRun st sc msgs).events.filter Event.isTerminal).length = 1) ∧
    (∃ e, (processRun st sc msgs).events.getLast? = some e ∧
      e.isTerminal = true) :=
  ⟨(processRun_shape st sc msgs).1, (processRun_shape st sc msgs).2.1,
   (processRun_shape st sc msgs).2.2.1⟩

/-! ## Lemmas: `_first_run` -/

theorem processBlock_firstRun (fl : ObsFlags) (st : AdapterState)
    (p : Option String) (b : Block) :
    (processBlock fl st p b).state.firstRun = st.firstRun := by
  cases b with
  | toolUseBlock id? name? input => simp only [processBlock]; split <;> rfl
  | _ => rfl

theorem processBlocks_firstRun (fl : ObsFlags) (p : Option String)
    (bs : List Block) : ∀ st : AdapterState,
    (processBlocks fl st p bs).state.firstRun = st.firstRun := by
  induction bs with
  | nil => intro st; rfl
  | cons b rest ih =>
      intro st
      simp only [processBlocks]
      rw [ih, processBlock_firstRun]

theorem closeText_firstRun (st : AdapterState) (bs : List Block) :
    (closeText st bs).1.firstRun = st.firstRun := by
  unfold closeText
  split
  · split <;> rfl
  · rfl

theorem processMessage_firstRun (fl : ObsFlags) (st : AdapterState)
    (m : SDKMessage) :
    (processMessage fl st m).state.firstRun = st.firstRun := by
  cases m with
  | streamEvent d =>
      cases d with
      | contentBlockDelta dt text => simp only [processMessage]; split <;> rfl
      | _ => rfl
  | systemMessage s sid text? => cases text? <;> rfl
  | assistantMessage bs p =>
      simp only [processMessage]
      rw [closeText_firstRun, processBlocks_firstRun]
  | userMessage bs p =>
      simp only [processMessage]
      rw [closeText_firstRun, processBlocks_firstRun]
  | resultMessage n s e r =>
      simp only [processMessage]
      split <;> rfl

theorem processMessages_firstRun (fl : ObsFlags) (msgs : List SDKMessage) :
    ∀ st : AdapterState,
    (processMessages fl st msgs).state.firstRun = st.firstRun := by
  induction msgs with
  | nil => intro st; rfl
  | cons m rest ih =>
      intro st
      simp only [processMessages]
      rw [ih, processMessage_firstRun]

theorem runSdk_firstRun (st : AdapterState) (sc : Scenario) :
    (runSdk st sc).state.firstRun = (st.firstRun && (runSdk st sc).err.isSome) := by
  unfold runSdk afterConnect
  repeat' split
  all_goals simp [processMessages_firstRun]

/-- **C4** (amended): after a run, `_first_run` is `false` exactly when it
was already `false` or the SDK run completed with no propagated exception:
engagement of the subprocess alone does not flip it — an error raised
while draining the message stream skips the flip (`self._first_run =
False` is the last statement of the receive-loop `try`).  It is never set
back to `true`. -/
theorem c4_first_run (st : AdapterState) (sc : Scenario) :
    ((runSdk st sc).state.firstRun = (st.firstRun && (runSdk st sc).err.isSome)) ∧
    (∀ msgs, st.firstRun = false →
      (processRun st sc msgs).state.firstRun = false) := by
  refine ⟨runSdk_firstRun st sc, ?_⟩
  intro msgs h
  unfold processRun
  split
  · exact h
  · simp [runSdk_firstRun, h]

/-- Witness for **C4**: a session whose flag is already `false` keeps it
`false` across a run. -/
theorem c4_first_run_witness :
    (processRun { initialState with firstRun := false }
      { authOk := true, isResume := false, connectErr := none,
        retryConnectErr := none, stream := [], streamErr := none,
        obs := ObsFlags.none } []).state.firstRun = false :=
  (c4_first_run { initialState with firstRun := false } _).2 [] rfl

/-- **C4** counterexample: on the session's first run the subprocess is
engaged — one connect attempt is made and the query is sent — and the
receive loop then raises; `_first_run` remains `true`, refuting the claim
that engagement alone flips it regardless of a later drain error. -/
theorem c4_counterexample :
    ((runSdk initialState
        { authOk := true, isResume := false, connectErr := none,
          retryConnectErr := none, stream := [], streamErr := some "boom",
          obs := ObsFlags.none }).connectAttempts = [false]) ∧
    ((runSdk initialState
        { authOk := true, isResume := false, connectErr := none,
          retryConnectErr := none, stream := [], streamErr := some "boom",
          obs := ObsFlags.none }).queried = true) ∧
    ((runSdk initialState
        { authOk := true, isResume := false, connectErr := none,
          retryConnectErr := none, stream := [], streamErr := some "boom",
          obs := ObsFlags.none }).err = some "boom") ∧
    ((runSdk initialState
        { authOk := true, isResume := false, connectErr := none,
          retryConnectErr := none, stream := [], streamErr := some "boom",
          obs := ObsFlags.none }).state.firstRun = true) := by
  decide

/-! ## Lemmas: the no-user-message epilogue -/

theorem echoFields_none_of_not_user (m : Msg) (h : isUserRole m = false) :
    echoFields m = none := by
  cases m with
  | obj role content id hidden hasMD =>
      simp only [isUserRole] at h
      simp [echoFields, h]
  | dict role? content id hidden =>
      simp only [isUserRole] at h
      simp [echoFields, h]

theorem echoMessages_nil {msgs : List Msg}
    (h : ∀ m ∈ msgs, isUserRole m = false) : ∀ nid : Nat,
    echoMessages nid msgs = ([], nid) := by
  induction msgs with
  | nil => intro nid; rfl
  | cons m rest ih =>
      intro nid
      have h1 := echoFields_none_of_not_user m (h m (by simp))
      have h2 := ih (fun x hx => h x (by simp [hx])) nid
      simp [echoMessages, echoMsg, h1, h2]

theorem findSome?_none {α β : Type} {f : α → Option β} {l : List α}
    (h : ∀ x ∈ l, f x = none) : l.findSome? f = none := by
  induction l with
  | nil => rfl
  | cons a t ih =>
      rw [List.findSome?_cons, h a (by simp)]
      exact ih (fun x hx => h x (by simp [hx]))

theorem extract_empty {msgs : List Msg}
    (h : ∀ m ∈ msgs, isUserRole m = false) : extractUserMessage msgs = "" := by
  unfold extractUserMessage
  rw [findSome?_none (fun x hx =>
    extractFromMsg_none_of_not_user x (h x (List.mem_reverse.mp hx)))]
  rfl

/-- **C6**: a run request containing no message with role `"user"` (in
particular a request with zero messages) yields exactly `RunStarted`, one
`Raw` system-log event with message `"No user message provided"`, then
`RunFinished`; no agent client is created, no query is sent, and no
`RunError` is emitted. -/
theorem c6_no_user_message (st : AdapterState) (sc : Scenario) (msgs : List Msg)
    (h : ∀ m ∈ msgs, isUserRole m = false) :
    ((processRun st sc msgs).events =
      [Event.runStarted, Event.raw (.systemLog "No user message provided"),
       Event.runFinished]) ∧
    ((processRun st sc msgs).connectAttempts = []) ∧
    ((processRun st sc msgs).queried = false) := by
  have hext := extract_empty h
  have hecho := echoMessages_nil h st.nextId
  refine ⟨?_, ?_, ?_⟩ <;> simp [processRun, hext, hecho]

/-- Witness for **C6**: the zero-message request. -/
theorem c6_no_user_message_witness :
    (processRun initialState
      { authOk := true, isResume := false,
        connectErr := none, retryConnectErr := none, stream := [],
        streamErr := none, obs := ObsFlags.none } []).events =
      [Event.runStarted, Event.raw (.systemLog "No user message provided"),
       Event.runFinished] :=
  (c6_no_user_message initialState _ [] (by intro m hm; cases hm)).1

/-! ## Lemmas: observability failures do not change the run -/

theorem processBlock_obs (fl fl' : ObsFlags) (st : AdapterState)
    (p : Option String) (b : Block) :
    (processBlock fl st p b).state = (processBlock fl' st p b).state ∧
    (processBlock fl st p b).events = (processBlock fl' st p b).events := by
  cases b <;> exact ⟨rfl, rfl⟩

theorem processBlocks_obs (fl fl' : ObsFlags) (p : Option String)
    (bs : List Block) : ∀ st : AdapterState,
    (processBlocks fl st p bs).state = (processBlocks fl' st p bs).state ∧
    (processBlocks fl st p bs).events = (processBlocks fl' st p bs).events := by
  induction bs with
  | nil => intro st; exact ⟨rfl, rfl⟩
  | cons b rest ih =>
      intro st
      obtain ⟨hs1, he1⟩ := processBlock_obs fl fl' st p b
      constructor
      · simp only [processBlocks]
        rw [hs1, (ih _).1]
      · simp only [processBlocks]
        rw [he1, hs1, (ih _).2]

theorem processMessage_obs (fl fl' : ObsFlags) (st : AdapterState)
    (m : SDKMessage) :
    (processMessage fl st m).state = (processMessage fl' st m).state ∧
    (processMessage fl st m).events = (processMessage fl' st m).events := by
  cases m with
  | streamEvent d => cases d <;> exact ⟨rfl, rfl⟩
  | systemMessage s sid text? => cases text? <;> exact ⟨rfl, rfl⟩
  | assistantMessage bs p =>
      obtain ⟨hs, he⟩ :=
        processBlocks_obs fl fl' p bs { st with pendingAssistant := true }
      constructor
      · simp only [processMessage]
        rw [hs]
      · simp only [processMessage]
        rw [hs, he]
  | userMessage bs p =>
      obtain ⟨hs, he⟩ := processBlocks_obs fl fl' p bs st
      constructor
      · simp only [processMessage]
        rw [hs]
      · simp only [processMessage]
        rw [hs, he]
  | resultMessage n s e r =>
      simp only [processMessage]
      split <;> exact ⟨rfl, rfl⟩

theorem processMessages_obs (fl fl' : ObsFlags) (msgs : List SDKMessage) :
    ∀ st : AdapterState,
    (processMessages fl st msgs).state = (processMessages fl' st msgs).state ∧
    (processMessages fl st msgs).events = (processMessages fl' st msgs).events := by
  induction msgs with
  | nil => intro st; exact ⟨rfl, rfl⟩
  | cons m rest ih =>
      intro st
      obtain ⟨hs1, he1⟩ := processMessage_obs fl fl' st m
      constructor
      · simp only [processMessages]
        rw [hs1, (ih _).1]
      · simp only [processMessages]
        rw [he1, hs1, (ih _).2]

theorem runSdk_obs (st : AdapterState) (sc : Scenario) (fl' : ObsFlags) :
    ((runSdk st { sc with obs := fl' }).state = (runSdk st sc).state) ∧
    ((runSdk st { sc with obs := fl' }).events = (runSdk st sc).events) ∧
    ((runSdk st { sc with obs := fl' }).err = (runSdk st sc).err) := by
  rcases sc with ⟨a, i, ce, re, stm, se, ob⟩
  obtain ⟨hs, he⟩ :=
    processMessages_obs fl' ob stm { st with pendingAssistant := false }
  unfold runSdk afterConnect
  repeat' split
  all_goals simp_all

theorem processRun_obs (st : AdapterState) (sc : Scenario) (fl' : ObsFlags)
    (msgs : List Msg) :
    (processRun st { sc with obs := fl' } msgs).events =
      (processRun st sc msgs).events := by
  obtain ⟨hs, he, herr⟩ :=
    runSdk_obs { st with nextId := (echoMessages st.nextId msgs).2 } sc fl'
  unfold processRun
  split
  · rfl
  · simp only [he, herr]

theorem runSdk_err_none (st : AdapterState) (sc : Scenario)
    (h1 : sc.authOk = true) (h2 : sc.connectErr = none)
    (h3 : sc.streamErr = none) : (runSdk st sc).err = none := by
  simp [runSdk, afterConnect, h1, h2, h3]

theorem getLast?_concat_of_eq (l l' : List Event) (t : Event)
    (h : l = l' ++ [t]) : l.getLast? = some t := by
  rw [h]
  exact List.getLast?_concat _

theorem processRun_last_finished (st : AdapterState) (sc : Scenario)
    (msgs : List Msg) (h1 : sc.authOk = true) (h2 : sc.connectErr = none)
    (h3 : sc.streamErr = none) :
    (processRun st sc msgs).events.getLast? = some Event.runFinished := by
  have herr :=
    runSdk_err_none { st with nextId := (echoMessages st.nextId msgs).2 } sc h1 h2 h3
  unfold processRun
  split
  · refine getLast?_concat_of_eq _
      (Event.runStarted :: ((echoMessages st.nextId msgs).1 ++
        [Event.raw (.systemLog "No user message provided")]))
      Event.runFinished ?_
    simp
  · refine getLast?_concat_of_eq _
      (Event.runStarted :: ((echoMessages st.nextId msgs).1 ++
        (runSdk { st with nextId := (echoMessages st.nextId msgs).2 } sc).events))
      Event.runFinished ?_
    simp [herr]

/-- **C9** (spec-modelled observability): failures internal to any
observability-sink operation (`initialize`, `start_turn`,
`track_tool_use`, `track_tool_result`, `end_turn`, `finalize`) change
neither the run's event sequence nor its outcome — the events are
identical to those of a run with no observability failure — and when
nothing else fails the run still ends with `RunFinished`, for every
combination of observability-failure flags. -/
theorem c9_observability_isolation (st : AdapterState) (sc : Scenario)
    (msgs : List Msg) :
    ((processRun st sc msgs).events =
      (processRun st { sc with obs := ObsFlags.none } msgs).events) ∧
    (sc.authOk = true → sc.connectErr = none → sc.streamErr = none →
      (processRun st sc msgs).events.getLast? = some Event.runFinished) := by
  constructor
  · rw [show sc = { sc with obs := sc.obs } from rfl]
    exact (processRun_obs st { sc with obs := ObsFlags.none } sc.obs msgs).trans
      (processRun_obs st { sc with obs := ObsFlags.none } ObsFlags.none msgs).symm
  · exact processRun_last_finished st sc msgs

/-- Witness for **C9**: with every observability operation failing, a
one-message run still ends with `RunFinished`. -/
theorem c9_observability_isolation_witness :
    (processRun initialState
      { authOk := true, isResume := false, connectErr := none,
        retryConnectErr := none, stream := [], streamErr := none,
        obs := ⟨true, true, true, true, true, true, true⟩ }
      [Msg.dict (some "user") (.text "hello") none false]).events.getLast? =
      some Event.runFinished :=
  (c9_observability_isolation initialState
    { authOk := true, isResume := false, connectErr := none,
      retryConnectErr := none, stream := [], streamErr := none,
      obs := ⟨true, true, true, true, true, true, true⟩ }
    [Msg.dict (some "user") (.text "hello") none false]).2 rfl rfl rfl

/-! ## Lemmas: continuation fallback -/

theorem translator_not_fallback (e : Event) (h : translatorEvent e = true) :
    (e == fallbackRaw) = false := by
  cases e with
  | raw pl =>
      cases pl <;> simp_all [translatorEvent, fallbackRaw, beq_iff_eq]
  | _ => simp_all [translatorEvent, fallbackRaw, beq_iff_eq]

theorem filter_fallback_nil {l : List Event} (h : l.all translatorEvent = true) :
    l.filter (fun ev => ev == fallbackRaw) = [] := by
  rw [List.filter_eq_nil_iff]
  intro e he
  have := List.all_eq_true.mp h e he
  simp [translator_not_fallback e this]

theorem afterConnect_fallback_filter (st : AdapterState) (sc : Scenario)
    (pre : List Event) (att : List Bool) (log : List String) :
    (afterConnect st sc pre att log).events.filter (fun ev => ev == fallbackRaw) =
      pre.filter (fun ev => ev == fallbackRaw) := by
  have hpo : ∀ (fl : ObsFlags) (st' : AdapterState),
      (processMessages fl st' sc.stream).events.filter
        (fun ev => ev == fallbackRaw) = [] :=
    fun fl st' =>
      filter_fallback_nil (processMessages_translatorEvent fl sc.stream st')
  have h1 : ((Event.raw (.systemLog "✅ Continuing conversation")) ==
      fallbackRaw) = false := by decide
  have h2 : ((Event.stepStarted "processing_prompt") == fallbackRaw) = false := by
    decide
  have h3 : ((Event.stepFinished "processing_prompt") == fallbackRaw) = false := by
    decide
  unfold afterConnect
  cases hse : sc.streamErr <;>
    · simp only [hse, List.filter_append, hpo, List.append_nil]
      split_ifs <;> simp [List.filter_cons, h1, h2, h3]

theorem afterConnect_attempts (st : AdapterState) (sc : Scenario)
    (pre : List Event) (att : List Bool) (log : List String) :
    (afterConnect st sc pre att log).connectAttempts = att := by
  unfold afterConnect
  cases hse : sc.streamErr <;> simp [hse]

/-- **C3** (amended): on a first-connect failure the bridge retries exactly
once with continuation disabled *iff* the lowercased error message
contains `"no conversation found"` **or** `"session"` (the code's check is
broader than the "no continuable conversation exists" condition the claim
states); when it retries it emits exactly one advisory `Raw` fallback
event, and `RunStarted` still occurs exactly once per run; any other
connect failure propagates with no retry and no advisory event. -/
theorem c3_continuation_fallback (st : AdapterState) (sc : Scenario) (e : String)
    (hce : sc.connectErr = some e) (ha : sc.authOk = true) :
    ((runSdk st sc).connectAttempts.length = 2 ↔
      (containsLower e "no conversation found" || containsLower e "session") = true) ∧
    ((containsLower e "no conversation found" || containsLower e "session") = true →
      (runSdk st sc).connectAttempts = [!st.firstRun || sc.isResume, false] ∧
      ((runSdk st sc).events.filter (fun ev => ev == fallbackRaw)).length = 1) ∧
    ((containsLower e "no conversation found" || containsLower e "session") = false →
      (runSdk st sc).err = some e ∧
      (runSdk st sc).connectAttempts = [!st.firstRun || sc.isResume] ∧
      ((runSdk st sc).events.filter (fun ev => ev == fallbackRaw)).length = 0) ∧
    (∀ msgs, ((processRun st sc msgs).events.filter Event.isRunStarted).length = 1) := by
  have h0 : ((Event.raw (.systemLog "🔄 Continuing conversation from previous state")) ==
      fallbackRaw) = false := by decide
  have hfb : (fallbackRaw == fallbackRaw) = true := by decide
  have hrs : ∀ msgs,
      ((processRun st sc msgs).events.filter Event.isRunStarted).length = 1 :=
    fun msgs => (processRun_shape st sc msgs).2.2.2
  obtain ⟨a, i, ce, re, stm, se, ob⟩ := sc
  simp only at hce ha
  subst hce
  subst ha
  have hfb2 : ((Event.raw
      (.systemLog "⚠️ Could not continue conversation, starting fresh...")) ==
      fallbackRaw) = true := by decide
  cases hcond : (containsLower e "no conversation found" || containsLower e "session") with
  | true =>
      have hshape :
          ((runSdk st ⟨true, i, some e, re, stm, se, ob⟩).connectAttempts =
            [!st.firstRun || i, false]) ∧
          (((runSdk st ⟨true, i, some e, re, stm, se, ob⟩).events.filter
            (fun ev => ev == fallbackRaw)).length = 1) := by
        cases re with
        | some e2 =>
            cases hcf : (!st.firstRun || i) <;>
              · constructor <;>
                  simp [runSdk, hcond, hcf, List.filter_append, List.filter_cons,
                    h0, hfb2]
        | none =>
            cases hcf : (!st.firstRun || i) <;>
              · constructor <;>
                  simp [runSdk, hcond, hcf, afterConnect_attempts,
                    afterConnect_fallback_filter, List.filter_append,
                    List.filter_cons, h0, hfb2]
      refine ⟨?_, fun _ => hshape, fun hf => Bool.noConfusion hf, hrs⟩
      rw [hshape.1]
      simp
  | false =>
      have hres :
          ((runSdk st ⟨true, i, some e, re, stm, se, ob⟩).err = some e) ∧
          ((runSdk st ⟨true, i, some e, re, stm, se, ob⟩).connectAttempts =
            [!st.firstRun || i]) ∧
          (((runSdk st ⟨true, i, some e, re, stm, se, ob⟩).events.filter
            (fun ev => ev == fallbackRaw)).length = 0) := by
        cases hcf : (!st.firstRun || i) <;>
          · refine ⟨?_, ?_, ?_⟩ <;>
              simp [runSdk, hcond, hcf, List.filter_cons, h0]
      refine ⟨?_, fun hf => Bool.noConfusion hf, fun _ => hres, hrs⟩
      rw [hres.2.1]
      simp

/-- Witness for **C3**: an error reporting that no conversation was found
triggers exactly one retry with continuation disabled and one advisory
event. -/
theorem c3_continuation_fallback_witness :
    ((runSdk { initialState with firstRun := false }
      { authOk := true, isResume := false,
        connectErr := some "No conversation found with session ID",
        retryConnectErr := none, stream := [], streamErr := none,
        obs := ObsFlags.none }).connectAttempts = [true, false]) ∧
    (((runSdk { initialState with firstRun := false }
      { authOk := true, isResume := false,
        connectErr := some "No conversation found with session ID",
        retryConnectErr := none, stream := [], streamErr := none,
        obs := ObsFlags.none }).events.filter
          (fun ev => ev == fallbackRaw)).length = 1) := by
  have h := c3_continuation_fallback { initialState with firstRun := false }
    { authOk := true, isResume := false,
      connectErr := some "No conversation found with session ID",
      retryConnectErr := none, stream := [], streamErr := none,
      obs := ObsFlags.none } "No conversation found with session ID" rfl rfl
  have hc := h.2.1 (by decide)
  exact ⟨hc.1, hc.2⟩

/-- **C3** counterexample: an error whose message merely contains
`"session"` — `"Session limit reached"`, which is *not* the
no-continuable-conversation condition (`"no conversation found"` does not
occur in it) — is nevertheless retried with continuation disabled instead
of propagating, refuting the claimed "if and only if". -/
theorem c3_counterexample :
    (containsLower "Session limit reached" "no conversation found" = false) ∧
    ((runSdk initialState
      { authOk := true, isResume := false,
        connectErr := some "Session limit reached",
        retryConnectErr := none, stream := [], streamErr := none,
        obs := ObsFlags.none }).connectAttempts = [false, false]) ∧
    ((runSdk initialState
      { authOk := true, isResume := false,
        connectErr := some "Session limit reached",
        retryConnectErr := none, stream := [], streamErr := none,
        obs := ObsFlags.none }).err = none) := by
  decide

/-! ## Lemmas: text-span exclusivity -/

theorem scanOpen_append (a b : List Event) : ∀ o : Bool,
    scanOpen o (a ++ b) = match scanOpen o a with
      | some o' => scanOpen o' b
      | none => none := by
  induction a with
  | nil => intro o; rfl
  | cons e rest ih =>
      intro o
      cases e with
      | textMessageStart mid role =>
          cases o with
          | true => rfl
          | false => exact ih true
      | textMessageEnd mid => exact ih false
      | runStarted => exact ih o
      | runFinished => exact ih o
      | runError m => exact ih o
      | textMessageContent mid d => exact ih o
      | toolCallStart a b c => exact ih o
      | toolCallArgs a b => exact ih o
      | toolCallEnd a b c => exact ih o
      | stepStarted n => exact ih o
      | stepFinished n => exact ih o
      | stateDelta => exact ih o
      | raw p => exact ih o

theorem scanOpen_neutral : ∀ {l : List Event},
    l.all Event.textNeutral = true → ∀ o : Bool, scanOpen o l = some o := by
  intro l
  induction l with
  | nil => intro _ o; rfl
  | cons e rest ih =>
      intro h o
      simp only [List.all_cons, Bool.and_eq_true] at h
      obtain ⟨he, hrest⟩ := h
      cases e <;> first
        | exact ih hrest o
        | exact absurd he (by simp [Event.textNeutral])

theorem blockEvent_textNeutral (e : Event) (h : blockEvent e = true) :
    Event.textNeutral e = true := by
  cases e with
  | raw pl => rfl
  | _ => first | rfl | exact absurd h (by simp [blockEvent])

theorem processBlock_cmid (fl : ObsFlags) (st : AdapterState)
    (p : Option String) (b : Block) :
    (processBlock fl st p b).state.currentMessageId = st.currentMessageId := by
  cases b with
  | toolUseBlock id? name? input => simp only [processBlock]; split <;> rfl
  | _ => rfl

theorem processBlocks_cmid (fl : ObsFlags) (p : Option String)
    (bs : List Block) : ∀ st : AdapterState,
    (processBlocks fl st p bs).state.currentMessageId = st.currentMessageId := by
  induction bs with
  | nil => intro st; rfl
  | cons b rest ih =>
      intro st
      simp only [processBlocks]
      rw [ih, processBlock_cmid]

theorem closeText_scan (st : AdapterState) (bs : List Block) (o : Bool)
    (ho : st.currentMessageId.isSome = o) :
    scanOpen o (closeText st bs).2 = some (o && bs.isEmpty) ∧
    (closeText st bs).1.currentMessageId.isSome = (o && bs.isEmpty) := by
  cases hc : st.currentMessageId with
  | some mid =>
      rw [hc] at ho
      simp only [Option.isSome_some] at ho
      subst ho
      unfold closeText
      rw [hc]
      cases hbs : bs.isEmpty with
      | true => simp [hbs, hc, scanOpen]
      | false => simp [hbs, hc, scanOpen]
  | none =>
      rw [hc] at ho
      simp only [Option.isSome_none] at ho
      subst ho
      unfold closeText
      rw [hc]
      simp [scanOpen, hc]

theorem processMessage_scan (fl : ObsFlags) (st : AdapterState)
    (m : SDKMessage) (o : Bool) (ho : st.currentMessageId.isSome = o)
    (hok : stepOk o m = true) :
    scanOpen o (processMessage fl st m).events = some (stepNext o m) ∧
    (processMessage fl st m).state.currentMessageId.isSome = stepNext o m := by
  cases m with
  | streamEvent d =>
      cases d with
      | messageStart =>
          have hco : o = false := by simpa [stepOk] using hok
          subst hco
          exact ⟨rfl, rfl⟩
      | contentBlockDelta dt text =>
          simp only [processMessage]
          split
          · exact ⟨rfl, ho⟩
          · exact ⟨rfl, ho⟩
      | otherEvent t => exact ⟨rfl, ho⟩
  | systemMessage s sid t? => cases t? <;> exact ⟨rfl, ho⟩
  | assistantMessage bs p =>
      have hbs := processBlocks_cmid fl p bs { st with pendingAssistant := true }
      have hneut : (processBlocks fl { st with pendingAssistant := true }
          p bs).events.all Event.textNeutral = true :=
        all_mono blockEvent_textNeutral (processBlocks_blockEvent fl p bs _)
      obtain ⟨hscan, hcm⟩ := closeText_scan
        (processBlocks fl { st with pendingAssistant := true } p bs).state bs o
        (by rw [hbs]; exact ho)
      constructor
      · simp only [processMessage]
        rw [scanOpen_append, scanOpen_neutral hneut o]
        exact hscan
      · simp only [processMessage]
        exact hcm
  | userMessage bs p =>
      have hbs := processBlocks_cmid fl p bs st
      have hneut : (processBlocks fl st p bs).events.all Event.textNeutral = true :=
        all_mono blockEvent_textNeutral (processBlocks_blockEvent fl p bs _)
      obtain ⟨hscan, hcm⟩ := closeText_scan (processBlocks fl st p bs).state bs o
        (by rw [hbs]; exact ho)
      constructor
      · simp only [processMessage]
        rw [scanOpen_append, scanOpen_neutral hneut o]
        exact hscan
      · simp only [processMessage]
        exact hcm
  | resultMessage n s e r =>
      constructor
      · simp only [processMessage]
        split <;> rfl
      · simp only [processMessage]
        split <;> exact ho

theorem processMessages_scan (fl : ObsFlags) : ∀ (msgs : List SDKMessage)
    (st : AdapterState) (o : Bool), st.currentMessageId.isSome = o →
    streamOk o msgs = true →
    scanOpen o (processMessages fl st msgs).events =
      some (processMessages fl st msgs).state.currentMessageId.isSome := by
  intro msgs
  induction msgs with
  | nil =>
      intro st o ho _
      simp [processMessages, scanOpen, ho]
  | cons m rest ih =>
      intro st o ho hok
      simp only [streamOk, Bool.and_eq_true] at hok
      obtain ⟨h1, h2⟩ := hok
      obtain ⟨hscan, hcm⟩ := processMessage_scan fl st m o ho h1
      simp only [processMessages]
      rw [scanOpen_append, hscan]
      exact ih _ (stepNext o m) hcm h2

theorem echoMsg_scan (nid : Nat) (m : Msg) :
    scanOpen false (echoMsg nid m).1 = some false := by
  unfold echoMsg
  split
  · rfl
  · split_ifs <;> rfl

theorem echoMessages_scan (msgs : List Msg) : ∀ nid : Nat,
    scanOpen false (echoMessages nid msgs).1 = some false := by
  induction msgs with
  | nil => intro nid; rfl
  | cons m rest ih =>
      intro nid
      simp only [echoMessages]
      rw [scanOpen_append, echoMsg_scan]
      exact ih _

theorem scanOpen_isSome_neutral {l : List Event}
    (h : l.all Event.textNeutral = true) : (scanOpen false l).isSome = true := by
  rw [scanOpen_neutral h false]
  rfl

theorem scanOpen_isSome_of (A B : List Event) (o : Bool)
    (hA : A.all Event.textNeutral = true)
    (hB : scanOpen false B = some o) :
    (scanOpen false (A ++ B)).isSome = true := by
  rw [scanOpen_append, scanOpen_neutral hA false]
  show (scanOpen false B).isSome = true
  rw [hB]
  rfl

theorem scanOpen_isSome_of3 (A B C : List Event) (o : Bool)
    (hA : A.all Event.textNeutral = true)
    (hB : scanOpen false B = some o)
    (hC : C.all Event.textNeutral = true) :
    (scanOpen false ((A ++ B) ++ C)).isSome = true := by
  rw [scanOpen_append, scanOpen_append, scanOpen_neutral hA false]
  show (match scanOpen false B with
    | some o' => scanOpen o' C
    | none => none).isSome = true
  rw [hB]
  show (scanOpen o C).isSome = true
  rw [scanOpen_neutral hC o]
  rfl

theorem afterConnect_scan (st : AdapterState) (sc : Scenario)
    (pre : List Event) (att : List Bool) (log : List String)
    (hpre : pre.all Event.textNeutral = true)
    (hcm : st.currentMessageId.isSome = false)
    (hst : streamOk false sc.stream = true) :
    (scanOpen false (afterConnect st sc pre att log).events).isSome = true := by
  have hpm := processMessages_scan sc.obs sc.stream st false hcm hst
  have hpre2 : ((pre ++ (if (!st.firstRun) = true then
        [Event.raw (.systemLog "✅ Continuing conversation")] else [])) ++
      [Event.stepStarted "processing_prompt"]).all Event.textNeutral = true :=
    allB_append _ (allB_append _ hpre (allB_ite _ _ rfl rfl)) rfl
  unfold afterConnect
  cases hse : sc.streamErr with
  | some e => exact scanOpen_isSome_of _ _ _ hpre2 hpm
  | none =>
      exact scanOpen_isSome_of3 _ _ [Event.stepFinished "processing_prompt"] _
        hpre2 hpm rfl

theorem runSdk_scan (st : AdapterState) (sc : Scenario)
    (hcm : st.currentMessageId = none)
    (hst : streamOk false sc.stream = true) :
    (scanOpen false (runSdk st sc).events).isSome = true := by
  have hcm' : ({ st with pendingAssistant := false } :
      AdapterState).currentMessageId.isSome = false := by simp [hcm]
  obtain ⟨a, i, ce, re, stm, se, ob⟩ := sc
  unfold runSdk
  cases a with
  | false => rfl
  | true =>
      cases ce with
      | none => exact afterConnect_scan _ _ _ _ _ (allB_ite _ _ rfl rfl) hcm' hst
      | some e =>
          cases hcond : (containsLower e "no conversation found" ||
              containsLower e "session") with
          | false =>
              simp only [hcond, Bool.false_eq_true, if_false]
              exact scanOpen_isSome_neutral (allB_ite _ _ rfl rfl)
          | true =>
              simp only [hcond]
              cases re with
              | some e2 =>
                  exact scanOpen_isSome_neutral
                    (allB_append _ (allB_ite _ _ rfl rfl) rfl)
              | none =>
                  exact afterConnect_scan _ _ _ _ _
                    (allB_append _ (allB_ite _ _ rfl rfl) rfl) hcm' hst

theorem scanOpen_run (echoEvs rest : List Event)
    (hecho : scanOpen false echoEvs = some false)
    (hrest : (scanOpen false rest).isSome = true) :
    (scanOpen false (Event.runStarted :: (echoEvs ++ rest))).isSome = true := by
  show (scanOpen false (echoEvs ++ rest)).isSome = true
  rw [scanOpen_append, hecho]
  exact hrest

theorem scanOpen_run2 (echoEvs B C : List Event) (o : Bool)
    (hecho : scanOpen false echoEvs = some false)
    (hB : scanOpen false B = some o)
    (hC : C.all Event.textNeutral = true) :
    (scanOpen false ((([Event.runStarted] ++ echoEvs) ++ B) ++ C)).isSome = true := by
  rw [scanOpen_append, scanOpen_append,
      show scanOpen false ([Event.runStarted] ++ echoEvs) = scanOpen false echoEvs
        from rfl,
      hecho]
  show (match scanOpen false B with
    | some o' => scanOpen o' C
    | none => none).isSome = true
  rw [hB]
  show (scanOpen o C).isSome = true
  rw [scanOpen_neutral hC o]
  rfl

/-- **C2** (amended): at no point in a run's event sequence are two
`TextMessageStart` events simultaneously open, *provided* the run begins
with no open text span and the agent stream is well formed — every
streaming `message_start` arrives while no span is open (each preceded by
a structured message with non-empty content closing the previous span).
The unconditional claim fails: two consecutive `message_start` sub-events
with no structured message between them yield two open starts. -/
theorem c2_text_exclusivity (st : AdapterState) (sc : Scenario)
    (msgs : List Msg) (hcm : st.currentMessageId = none)
    (hst : streamOk false sc.stream = true) :
    textExclusive (processRun st sc msgs).events = true := by
  unfold textExclusive
  by_cases hx : (extractUserMessage msgs == "") = true
  · simp only [processRun, hx, eq_self_iff_true, if_true]
    exact scanOpen_run (echoMessages st.nextId msgs).1
      [Event.raw (.systemLog "No user message provided"), Event.runFinished]
      (echoMessages_scan msgs st.nextId) rfl
  · have hx' : (extractUserMessage msgs == "") = false := by
      simpa using hx
    have hsdk := runSdk_scan { st with nextId := (echoMessages st.nextId msgs).2 }
      sc hcm hst
    obtain ⟨o', ho'⟩ := Option.isSome_iff_exists.mp hsdk
    simp only [processRun, hx', Bool.false_eq_true, if_false]
    cases hre : (runSdk { st with nextId := (echoMessages st.nextId msgs).2 } sc).err with
    | none =>
        exact scanOpen_run2 (echoMessages st.nextId msgs).1 _ [Event.runFinished] o'
          (echoMessages_scan msgs st.nextId) ho' rfl
    | some e =>
        exact scanOpen_run2 (echoMessages st.nextId msgs).1 _ [Event.runError e] o'
          (echoMessages_scan msgs st.nextId) ho' rfl

/-- Witness for **C2**: a well-formed stream — `message_start` followed by
a structured assistant message with non-empty content — keeps text spans
exclusive. -/
theorem c2_text_exclusivity_witness :
    textExclusive (processRun initialState
      { authOk := true, isResume := false, connectErr := none,
        retryConnectErr := none,
        stream := [SDKMessage.streamEvent .messageStart,
                   SDKMessage.assistantMessage [Block.textBlock (some "x")] none],
        streamErr := none, obs := ObsFlags.none }
      [Msg.dict (some "user") (.text "hi") none false]).events = true :=
  c2_text_exclusivity initialState
    { authOk := true, isResume := false, connectErr := none,
      retryConnectErr := none,
      stream := [SDKMessage.streamEvent .messageStart,
                 SDKMessage.assistantMessage [Block.textBlock (some "x")] none],
      streamErr := none, obs := ObsFlags.none }
    [Msg.dict (some "user") (.text "hi") none false] rfl (by decide)

/-- **C2** counterexample: two consecutive streaming `message_start`
sub-events with no structured message in between produce two
`TextMessageStart` events with no intervening `TextMessageEnd`, refuting
the claim for arbitrary agent message sequences. -/
theorem c2_counterexample :
    textExclusive (processRun initialState
      { authOk := true, isResume := false, connectErr := none,
        retryConnectErr := none,
        stream := [SDKMessage.streamEvent .messageStart,
                   SDKMessage.streamEvent .messageStart],
        streamErr := none, obs := ObsFlags.none }
      [Msg.dict (some "user") (.text "hi") none false]).events = false := by
  decide

end Runner
